import Mathlib

/-!
Shallow embedding of the Veritasor attestation contract
(src/contracts/attestation/src/lib.rs) and proofs of the specified
properties of its store and pagination query engine.

Addresses are modelled as naturals, the 32-byte merkle root as an
abstract value with decidable equality (a natural), periods as strings
ordered by the string order, and contract storage as a record of the
three key families the contract uses: the (business, period) -> record
map, the (STATUS_KEY_TAG, business, period) -> u32 map, and the
ADMIN_KEY_TAG -> Address slot.  A Rust panic aborts the invocation with
no state change, so each mutating entry point returns Except Err Store.
-/

abbrev Address := Nat
abbrev Period := String
abbrev Root := Nat

def QUERY_LIMIT_MAX : Nat := 30
def STATUS_ACTIVE : Nat := 0
def STATUS_REVOKED : Nat := 1
def STATUS_FILTER_ALL : Nat := 2

/-- The record stored under a (business, period) key: the tuple
(merkle_root, timestamp, version) of the Rust code. -/
structure AttestationRecord where
  merkle_root : Root
  timestamp : Nat
  version : Nat
deriving DecidableEq, Repr

/-- The error taxonomy: each corresponds to one panic or expect message
in the Rust code. -/
inductive Err where
  | DuplicateAttestation
  | AdminAlreadySet
  | AdminNotSet
  | NotAdmin
  | AttestationNotFound
deriving DecidableEq, Repr

/-- Contract instance storage, split by key family. -/
structure Store where
  records : Address → Period → Option AttestationRecord
  statuses : Address → Period → Option Nat
  admin : Option Address

def empty_store : Store :=
  { records := fun _ _ => none, statuses := fun _ _ => none, admin := none }

/-- Point update of a two-argument map. -/
def upd2 {α : Type} (f : Address → Period → Option α) (b : Address)
    (p : Period) (v : α) : Address → Period → Option α :=
  fun b1 p1 => if b1 = b ∧ p1 = p then some v else f b1 p1

/-- submit_attestation: panics when a record already exists for the key,
otherwise stores the record and an explicit STATUS_ACTIVE status. -/
def submit_attestation (s : Store) (business : Address) (period : Period)
    (merkle_root : Root) (timestamp : Nat) (version : Nat) : Except Err Store :=
  if (s.records business period).isSome then
    .error .DuplicateAttestation
  else
    .ok { s with
      records := upd2 s.records business period
        ⟨merkle_root, timestamp, version⟩,
      statuses := upd2 s.statuses business period STATUS_ACTIVE }

/-- get_attestation: pure lookup. -/
def get_attestation (s : Store) (business : Address) (period : Period) :
    Option AttestationRecord :=
  s.records business period

/-- verify_attestation: true iff a record exists and its stored root
equals the candidate root. -/
def verify_attestation (s : Store) (business : Address) (period : Period)
    (merkle_root : Root) : Bool :=
  match get_attestation s business period with
  | some r => r.merkle_root = merkle_root
  | none => false

/-- init: one-time admin setup; panics when the admin slot is set. -/
def init (s : Store) (admin : Address) : Except Err Store :=
  if s.admin.isSome then
    .error .AdminAlreadySet
  else
    .ok { s with admin := some admin }

/-- revoke_attestation: admin-gated status write.  The expect on the
admin slot, the caller check and the record-existence check fire in this
order, before the single status write. -/
def revoke_attestation (s : Store) (caller : Address) (business : Address)
    (period : Period) : Except Err Store :=
  match s.admin with
  | none => .error .AdminNotSet
  | some admin =>
    if caller ≠ admin then
      .error .NotAdmin
    else if (s.records business period).isNone then
      .error .AttestationNotFound
    else
      .ok { s with
        statuses := upd2 s.statuses business period STATUS_REVOKED }

/-- get_status: status for a key, defaulting to STATUS_ACTIVE when the
status key is absent. -/
def get_status (s : Store) (business : Address) (period : Period) : Nat :=
  (s.statuses business period).getD STATUS_ACTIVE

/-- One result row of the pagination query:
(period, merkle_root, timestamp, version, status). -/
abbrev PageEntry := Period × Root × Nat × Nat × Nat

/-- The range filter of the scan loop: period_start <= period and
period <= period_end, each bound checked only when set, via the string
order exactly as the Rust cmp calls. -/
def in_range (period : Period) (period_start period_end : Option Period) : Bool :=
  (match period_start with
   | some s => !(compare period s == Ordering.lt)
   | none => true) &&
  (match period_end with
   | some s => !(compare period s == Ordering.gt)
   | none => true)

/-- The body of one iteration of the while loop of get_attestations_page:
apply the range, existence, status and version filters, in the order of
the Rust code, to one candidate period, appending to the output on
acceptance. -/
def scan_step (s : Store) (business : Address)
    (period_start period_end : Option Period) (status_filter : Nat)
    (version_filter : Option Nat) (period : Period)
    (out : List PageEntry) : List PageEntry :=
  if !(in_range period period_start period_end) then out
  else
    match s.records business period with
    | some r =>
      let status := get_status s business period
      let status_ok : Bool := (status_filter == STATUS_FILTER_ALL) ||
        (status_filter == STATUS_ACTIVE && status == STATUS_ACTIVE) ||
        (status_filter == STATUS_REVOKED && status == STATUS_REVOKED)
      let version_ok : Bool := match version_filter with
        | some v => v == r.version
        | none => true
      if status_ok && version_ok then
        out ++ [(period, r.merkle_root, r.timestamp, r.version, status)]
      else out
    | none => out

/-- The while loop of get_attestations_page over the suffix of periods
that starts at the cursor: returns the accumulated output and the number
of candidates scanned.  Each iteration first re-checks that the output
is still below the limit, exactly like the loop condition of the Rust
code. -/
def scan_loop (s : Store) (business : Address)
    (period_start period_end : Option Period) (status_filter : Nat)
    (version_filter : Option Nat) (limit : Nat) :
    List Period → List PageEntry → List PageEntry × Nat
  | [], out => (out, 0)
  | period :: rest, out =>
    if out.length < limit then
      let out1 := scan_step s business period_start period_end status_filter
        version_filter period out
      let res := scan_loop s business period_start period_end status_filter
        version_filter limit rest out1
      (res.1, res.2 + 1)
    else
      (out, 0)

/-- get_attestations_page: clamp the limit to QUERY_LIMIT_MAX, return
(empty, cursor) when the cursor is at or past the end, otherwise scan
from the cursor and return the results plus cursor + scanned. -/
def get_attestations_page (s : Store) (business : Address)
    (periods : List Period) (period_start period_end : Option Period)
    (status_filter : Nat) (version_filter : Option Nat)
    (limit cursor : Nat) : List PageEntry × Nat :=
  let limit := min limit QUERY_LIMIT_MAX
  let len := periods.length
  if cursor ≥ len then
    ([], cursor)
  else
    let res := scan_loop s business period_start period_end status_filter
      version_filter limit (periods.drop cursor) []
    (res.1, cursor + res.2)

/-- The mutating entry points of the contract interface, for statements
about reachable states and operation sequences.  get_attestation,
verify_attestation and get_attestations_page write nothing and so do not
appear. -/
inductive Op where
  | submitOp (business : Address) (period : Period) (merkle_root : Root)
      (timestamp : Nat) (version : Nat)
  | initOp (admin : Address)
  | revokeOp (caller business : Address) (period : Period)

/-- Run one entry point against the store: a panic (error) aborts the
invocation and leaves the store exactly as it was. -/
def apply_op (s : Store) : Op → Store
  | .submitOp b p r ts v =>
    match submit_attestation s b p r ts v with
    | .ok s1 => s1
    | .error _ => s
  | .initOp a =>
    match init s a with
    | .ok s1 => s1
    | .error _ => s
  | .revokeOp c b p =>
    match revoke_attestation s c b p with
    | .ok s1 => s1
    | .error _ => s

/-- Store states reachable from the empty store through the contract's
entry points. -/
inductive Reachable : Store → Prop where
  | empty : Reachable empty_store
  | step (op : Op) {s : Store} : Reachable s → Reachable (apply_op s op)

/-- The store after one successful submission, for concrete instances of
the theorems below. -/
def s_one : Store := apply_op empty_store (.submitOp 0 "2024-Q1" 7 1000 1)

/-- s_one after the admin is set to address 1. -/
def s_admin : Store := apply_op s_one (.initOp 1)

/-- s_admin after the admin revokes the attestation of (0, 2024-Q1). -/
def s_rev : Store := apply_op s_admin (.revokeOp 1 0 "2024-Q1")

/-- Fifty concrete period identifiers, every one of them below the
period-range lower bound 9999 in the string order. -/
def periods50 : List Period := (List.range 50).map (fun n => toString n)

/-! ## Helper lemmas -/

theorem upd2_same {α : Type} (f : Address → Period → Option α) (b : Address)
    (p : Period) (v : α) : upd2 f b p v b p = some v := by
  simp [upd2]

theorem upd2_other {α : Type} (f : Address → Period → Option α) (b : Address)
    (p : Period) (v : α) (b1 : Address) (p1 : Period)
    (h : ¬(b1 = b ∧ p1 = p)) : upd2 f b p v b1 p1 = f b1 p1 := by
  simp only [upd2, if_neg h]

/-! ## C1: duplicate submission -/

/-- C1: for every store state and every key (owner, period) that already
has a record, a second submit for that key fails with
DuplicateAttestation, and the store (in particular the record stored for
that key) after the failed call equals the store before it. -/
theorem submit_duplicate (s : Store) (b : Address) (p : Period)
    (r : AttestationRecord) (root : Root) (ts ver : Nat)
    (h : s.records b p = some r) :
    submit_attestation s b p root ts ver = .error .DuplicateAttestation ∧
    apply_op s (.submitOp b p root ts ver) = s ∧
    (apply_op s (.submitOp b p root ts ver)).records b p = some r := by
  have hs : (s.records b p).isSome = true := by rw [h]; rfl
  have h1 : submit_attestation s b p root ts ver =
      .error .DuplicateAttestation := by
    simp [submit_attestation, hs]
  have h2 : apply_op s (.submitOp b p root ts ver) = s := by
    show (match submit_attestation s b p root ts ver with
      | .ok s1 => s1
      | .error _ => s) = s
    rw [h1]
  exact ⟨h1, h2, by rw [h2, h]⟩

/-- C1 witness: the concrete one-record store rejects a second submit
with different data and keeps its record. -/
theorem submit_duplicate_w :
    submit_attestation s_one 0 "2024-Q1" 9 2000 2 =
      .error .DuplicateAttestation ∧
    apply_op s_one (.submitOp 0 "2024-Q1" 9 2000 2) = s_one ∧
    (apply_op s_one (.submitOp 0 "2024-Q1" 9 2000 2)).records 0 "2024-Q1" =
      some ⟨7, 1000, 1⟩ :=
  submit_duplicate s_one 0 "2024-Q1" ⟨7, 1000, 1⟩ 9 2000 2 rfl

/-! ## C2: verification correctness -/

/-- C2: verify(owner, period, candidate_root) is true iff a record
exists for the key and its stored merkle root equals candidate_root; in
particular it is false whenever no record exists for the key. -/
theorem verify_iff (s : Store) (b : Address) (p : Period) (c : Root) :
    (verify_attestation s b p c = true ↔
      ∃ r, s.records b p = some r ∧ r.merkle_root = c) ∧
    (s.records b p = none → verify_attestation s b p c = false) := by
  constructor
  · constructor
    · intro h
      unfold verify_attestation get_attestation at h
      cases hr : s.records b p with
      | none => rw [hr] at h; simp at h
      | some r =>
        rw [hr] at h
        simp only [decide_eq_true_eq] at h
        exact ⟨r, rfl, h⟩
    · rintro ⟨r, hr, hroot⟩
      unfold verify_attestation get_attestation
      rw [hr]
      simp [hroot]
  · intro h
    unfold verify_attestation get_attestation
    rw [h]

/-- C2 witness: on the concrete one-record store, verification succeeds
at the stored root. -/
theorem verify_iff_w : verify_attestation s_one 0 "2024-Q1" 7 = true :=
  (verify_iff s_one 0 "2024-Q1" 7).1.mpr ⟨⟨7, 1000, 1⟩, rfl, rfl⟩

/-! ## C3: revoke error taxonomy and atomic failure -/

/-- C3: revoke fails with AdminNotSet when no admin is configured, with
NotAdmin when an admin is configured and the caller differs from it, and
with AttestationNotFound when the caller is the admin but no record
exists for the key; every failing call leaves the store exactly as it
was. -/
theorem revoke_errors (s : Store) (caller business : Address) (period : Period) :
    (s.admin = none →
      revoke_attestation s caller business period = .error .AdminNotSet) ∧
    (∀ a, s.admin = some a → caller ≠ a →
      revoke_attestation s caller business period = .error .NotAdmin) ∧
    (s.admin = some caller → s.records business period = none →
      revoke_attestation s caller business period =
        .error .AttestationNotFound) ∧
    (∀ e, revoke_attestation s caller business period = .error e →
      apply_op s (.revokeOp caller business period) = s) := by
  refine ⟨?_, ?_, ?_, ?_⟩
  · intro h
    unfold revoke_attestation
    rw [h]
  · intro a ha hne
    unfold revoke_attestation
    rw [ha]
    simp [hne]
  · intro ha hrec
    unfold revoke_attestation
    rw [ha, hrec]
    simp
  · intro e he
    show (match revoke_attestation s caller business period with
      | .ok s1 => s1
      | .error _ => s) = s
    rw [he]

/-- C3 witness: on the concrete store whose admin is address 1, a call
by address 2 fails with NotAdmin. -/
theorem revoke_errors_w :
    revoke_attestation s_admin 2 0 "2024-Q1" = .error .NotAdmin :=
  (revoke_errors s_admin 2 0 "2024-Q1").2.1 1 rfl (by decide)

/-! ## Shape lemmas for apply_op -/

theorem apply_op_submit_dup (s : Store) (b1 : Address) (p1 : Period)
    (root ts ver : Nat) (h : (s.records b1 p1).isSome = true) :
    apply_op s (.submitOp b1 p1 root ts ver) = s := by
  show (match submit_attestation s b1 p1 root ts ver with
    | .ok s1 => s1
    | .error _ => s) = s
  simp [submit_attestation, h]

theorem apply_op_submit_new (s : Store) (b1 : Address) (p1 : Period)
    (root ts ver : Nat) (h : (s.records b1 p1).isSome = false) :
    apply_op s (.submitOp b1 p1 root ts ver) =
      { s with records := upd2 s.records b1 p1 ⟨root, ts, ver⟩,
               statuses := upd2 s.statuses b1 p1 STATUS_ACTIVE } := by
  show (match submit_attestation s b1 p1 root ts ver with
    | .ok s1 => s1
    | .error _ => s) = _
  simp [submit_attestation, h]

theorem apply_op_init_dup (s : Store) (a : Address)
    (h : s.admin.isSome = true) : apply_op s (.initOp a) = s := by
  show (match init s a with
    | .ok s1 => s1
    | .error _ => s) = s
  simp [init, h]

theorem apply_op_init_new (s : Store) (a : Address)
    (h : s.admin.isSome = false) :
    apply_op s (.initOp a) = { s with admin := some a } := by
  show (match init s a with
    | .ok s1 => s1
    | .error _ => s) = _
  simp [init, h]

theorem revoke_ok_shape (s : Store) (c b1 : Address) (p1 : Period)
    (ha : s.admin = some c) (r : AttestationRecord)
    (hr : s.records b1 p1 = some r) :
    revoke_attestation s c b1 p1 =
      .ok { s with statuses := upd2 s.statuses b1 p1 STATUS_REVOKED } := by
  simp [revoke_attestation, ha, hr]

/-- Every application of an entry point either leaves the store as it
was, or is the successful branch of one of the three writes. -/
theorem apply_op_cases (s : Store) (op : Op) :
    apply_op s op = s ∨
    (∃ b1 p1 root ts ver, (s.records b1 p1).isSome = false ∧
      apply_op s op =
        { s with records := upd2 s.records b1 p1 ⟨root, ts, ver⟩,
                 statuses := upd2 s.statuses b1 p1 STATUS_ACTIVE }) ∨
    (∃ a, s.admin.isSome = false ∧ apply_op s op = { s with admin := some a }) ∨
    (∃ b1 p1, (s.records b1 p1).isSome = true ∧
      apply_op s op =
        { s with statuses := upd2 s.statuses b1 p1 STATUS_REVOKED }) := by
  cases op with
  | submitOp b1 p1 root ts ver =>
    cases hex : (s.records b1 p1).isSome with
    | true => exact Or.inl (apply_op_submit_dup s b1 p1 root ts ver hex)
    | false =>
      exact Or.inr (Or.inl
        ⟨b1, p1, root, ts, ver, hex, apply_op_submit_new s b1 p1 root ts ver hex⟩)
  | initOp a =>
    cases ha : s.admin.isSome with
    | true => exact Or.inl (apply_op_init_dup s a ha)
    | false => exact Or.inr (Or.inr (Or.inl ⟨a, rfl, apply_op_init_new s a ha⟩))
  | revokeOp c b1 p1 =>
    cases ha : s.admin with
    | none =>
      refine Or.inl ?_
      show (match revoke_attestation s c b1 p1 with
        | .ok s1 => s1
        | .error _ => s) = s
      simp [revoke_attestation, ha]
    | some a =>
      by_cases hc : c = a
      · cases hx : s.records b1 p1 with
        | none =>
          refine Or.inl ?_
          show (match revoke_attestation s c b1 p1 with
            | .ok s1 => s1
            | .error _ => s) = s
          simp [revoke_attestation, ha, hx, hc]
        | some r =>
          refine Or.inr (Or.inr (Or.inr ⟨b1, p1, by rw [hx]; rfl, ?_⟩))
          show (match revoke_attestation s c b1 p1 with
            | .ok s1 => s1
            | .error _ => s) = _
          rw [hc, revoke_ok_shape s a b1 p1 ha r hx, ha]
      · refine Or.inl ?_
        show (match revoke_attestation s c b1 p1 with
          | .ok s1 => s1
          | .error _ => s) = s
        simp [revoke_attestation, ha, hc]

/-! ## Persistence of records and of a revoked status -/

theorem op_preserves_revoked (s : Store) (op : Op) (b : Address) (p : Period)
    (hrec : (s.records b p).isSome = true)
    (hst : s.statuses b p = some STATUS_REVOKED) :
    ((apply_op s op).records b p).isSome = true ∧
    (apply_op s op).statuses b p = some STATUS_REVOKED := by
  rcases apply_op_cases s op with
    heq | ⟨b1, p1, root, ts, ver, hnew, heq⟩ | ⟨a, _, heq⟩ |
    ⟨b1, p1, hex, heq⟩
  · rw [heq]; exact ⟨hrec, hst⟩
  · rw [heq]
    constructor
    · show (upd2 s.records b1 p1 _ b p).isSome = true
      unfold upd2
      split
      · rfl
      · exact hrec
    · show upd2 s.statuses b1 p1 STATUS_ACTIVE b p = some STATUS_REVOKED
      unfold upd2
      split
      · rename_i hkey
        obtain ⟨h1, h2⟩ := hkey
        subst h1
        subst h2
        rw [hrec] at hnew
        exact absurd hnew (by decide)
      · exact hst
  · rw [heq]; exact ⟨hrec, hst⟩
  · rw [heq]
    refine ⟨hrec, ?_⟩
    show upd2 s.statuses b1 p1 STATUS_REVOKED b p = some STATUS_REVOKED
    unfold upd2
    split
    · rfl
    · exact hst

theorem foldl_preserves_revoked (b : Address) (p : Period) :
    ∀ (ops : List Op) (s : Store), (s.records b p).isSome = true →
      s.statuses b p = some STATUS_REVOKED →
      (ops.foldl apply_op s).statuses b p = some STATUS_REVOKED := by
  intro ops
  induction ops with
  | nil => intro s _ h2; simpa using h2
  | cons op rest ih =>
    intro s h1 h2
    have h := op_preserves_revoked s op b p h1 h2
    simpa using ih (apply_op s op) h.1 h.2

/-! ## C4: successful revocation changes only the status of its key -/

/-- C4: a successful revoke leaves every record and the admin unchanged,
sets the status of its key to Revoked, leaves every other status
unchanged, keeps get and verify of the original root working on the key,
and no subsequent sequence of interface operations ever takes the status
of the key back to Active. -/
theorem revoke_frame (s s1 : Store) (caller business : Address)
    (period : Period)
    (h : revoke_attestation s caller business period = .ok s1) :
    s1.records = s.records ∧
    s1.admin = s.admin ∧
    s1.statuses business period = some STATUS_REVOKED ∧
    (∀ b1 p1, ¬(b1 = business ∧ p1 = period) →
      s1.statuses b1 p1 = s.statuses b1 p1) ∧
    get_attestation s1 business period = get_attestation s business period ∧
    (∀ r, s.records business period = some r →
      verify_attestation s1 business period r.merkle_root = true) ∧
    (∀ ops : List Op,
      (ops.foldl apply_op s1).statuses business period =
        some STATUS_REVOKED) := by
  have hrec : (s.records business period).isSome = true := by
    unfold revoke_attestation at h
    cases ha : s.admin with
    | none => rw [ha] at h; simp at h
    | some a =>
      rw [ha] at h
      by_cases hc : caller ≠ a
      · simp [hc] at h
      · simp only [hc, ite_false, not_false_eq_true, ite_not] at h
        cases hx : s.records business period with
        | none => rw [hx] at h; simp at h
        | some r => rfl
  have hs1 : s1 = { s with
      statuses := upd2 s.statuses business period STATUS_REVOKED } := by
    unfold revoke_attestation at h
    cases ha : s.admin with
    | none => rw [ha] at h; simp at h
    | some a =>
      rw [ha] at h
      by_cases hc : caller ≠ a
      · simp [hc] at h
      · simp only [hc, ite_false, not_false_eq_true, ite_not] at h
        cases hx : s.records business period with
        | none => rw [hx] at h; simp at h
        | some r =>
          rw [hx] at h
          simp at h
          exact h.symm
  subst hs1
  refine ⟨rfl, rfl, upd2_same _ _ _ _, ?_, rfl, ?_, ?_⟩
  · intro b1 p1 hne
    exact upd2_other _ _ _ _ _ _ hne
  · intro r hr
    simp [verify_attestation, get_attestation, hr]
  · intro ops
    exact foldl_preserves_revoked business period ops _ hrec
      (upd2_same _ _ _ _)

/-- C4 witness: after the concrete revocation, the status of the key is
Revoked while its record and root verification are untouched. -/
theorem revoke_frame_w :
    s_rev.records = s_admin.records ∧
    s_rev.admin = s_admin.admin ∧
    s_rev.statuses 0 "2024-Q1" = some STATUS_REVOKED ∧
    (∀ b1 p1, ¬(b1 = 0 ∧ p1 = "2024-Q1") →
      s_rev.statuses b1 p1 = s_admin.statuses b1 p1) ∧
    get_attestation s_rev 0 "2024-Q1" = get_attestation s_admin 0 "2024-Q1" ∧
    (∀ r, s_admin.records 0 "2024-Q1" = some r →
      verify_attestation s_rev 0 "2024-Q1" r.merkle_root = true) ∧
    (∀ ops : List Op,
      (ops.foldl apply_op s_rev).statuses 0 "2024-Q1" =
        some STATUS_REVOKED) :=
  revoke_frame s_admin s_rev 1 0 "2024-Q1" rfl

/-! ## Pagination lemmas -/

theorem scan_step_length_le (s : Store) (b : Address)
    (ps pe : Option Period) (sf : Nat) (vf : Option Nat) (period : Period)
    (out : List PageEntry) :
    (scan_step s b ps pe sf vf period out).length ≤ out.length + 1 := by
  unfold scan_step
  split
  · exact Nat.le_succ _
  · split
    · dsimp only
      split
      · simp
      · exact Nat.le_succ _
    · exact Nat.le_succ _

theorem scan_loop_len_le (s : Store) (b : Address) (ps pe : Option Period)
    (sf : Nat) (vf : Option Nat) (limit : Nat) :
    ∀ (l : List Period) (out : List PageEntry), out.length ≤ limit →
      (scan_loop s b ps pe sf vf limit l out).1.length ≤ limit := by
  intro l
  induction l with
  | nil => intro out h; exact h
  | cons period rest ih =>
    intro out h
    unfold scan_loop
    by_cases hlt : out.length < limit
    · rw [if_pos hlt]
      dsimp only
      exact ih _ (le_trans (scan_step_length_le s b ps pe sf vf period out) hlt)
    · rw [if_neg hlt]
      exact h

theorem scan_loop_scanned_le (s : Store) (b : Address) (ps pe : Option Period)
    (sf : Nat) (vf : Option Nat) (limit : Nat) :
    ∀ (l : List Period) (out : List PageEntry),
      (scan_loop s b ps pe sf vf limit l out).2 ≤ l.length := by
  intro l
  induction l with
  | nil => intro out; simp [scan_loop]
  | cons period rest ih =>
    intro out
    unfold scan_loop
    by_cases hlt : out.length < limit
    · rw [if_pos hlt]
      dsimp only
      have := ih (scan_step s b ps pe sf vf period out)
      simp only [List.length_cons]
      omega
    · rw [if_neg hlt]
      simp

theorem scan_loop_scanned_pos (s : Store) (b : Address) (ps pe : Option Period)
    (sf : Nat) (vf : Option Nat) (limit : Nat) (period : Period)
    (rest : List Period) (out : List PageEntry) (h : out.length < limit) :
    1 ≤ (scan_loop s b ps pe sf vf limit (period :: rest) out).2 := by
  unfold scan_loop
  rw [if_pos h]
  dsimp only
  omega

/-! ## C5: the page size is capped -/

/-- C5: for every call to the pagination query, with any caller-supplied
limit and any inputs, the returned results list has at most
min(limit, QUERY_LIMIT_MAX) entries, QUERY_LIMIT_MAX being the fixed
constant 30. -/
theorem page_cap (s : Store) (b : Address) (periods : List Period)
    (ps pe : Option Period) (sf : Nat) (vf : Option Nat)
    (limit cursor : Nat) :
    (get_attestations_page s b periods ps pe sf vf limit cursor).1.length ≤
      min limit QUERY_LIMIT_MAX := by
  unfold get_attestations_page
  dsimp only
  split
  · simp
  · dsimp only
    exact scan_loop_len_le s b ps pe sf vf (min limit QUERY_LIMIT_MAX)
      (periods.drop cursor) [] (Nat.zero_le _)

/-! ## C6: pagination progress -/

/-- C6 counterexample: with caller limit 0 and cursor 0 over a one-entry
period list, the cursor is strictly below the list length yet the
returned next cursor equals the cursor, so the claimed strict progress
fails for that limit. -/
theorem page_progress_cex :
    0 < (["a"] : List Period).length ∧
    ¬(0 <
      (get_attestations_page empty_store 0 ["a"] none none 2 none 0 0).2) :=
  ⟨by decide, by decide⟩

/-- C6 amended: for every call with a positive caller limit and
cursor < length(periods), the returned next cursor is strictly above the
cursor and at most length(periods); and for cursor >= length(periods)
the call returns the empty list with the cursor unchanged. -/
theorem page_progress (s : Store) (b : Address) (periods : List Period)
    (ps pe : Option Period) (sf : Nat) (vf : Option Nat)
    (limit cursor : Nat) :
    (1 ≤ limit → cursor < periods.length →
      cursor < (get_attestations_page s b periods ps pe sf vf limit cursor).2 ∧
      (get_attestations_page s b periods ps pe sf vf limit cursor).2 ≤
        periods.length) ∧
    (periods.length ≤ cursor →
      get_attestations_page s b periods ps pe sf vf limit cursor =
        ([], cursor)) := by
  constructor
  · intro hlim hcur
    unfold get_attestations_page
    dsimp only
    rw [if_neg (Nat.not_le.mpr hcur)]
    dsimp only
    constructor
    · obtain ⟨q, qs, hd⟩ : ∃ q qs, periods.drop cursor = q :: qs := by
        cases hd : periods.drop cursor with
        | nil =>
          exfalso
          have hlen := List.length_drop cursor periods
          rw [hd] at hlen
          simp at hlen
          omega
        | cons q qs => exact ⟨q, qs, rfl⟩
      rw [hd]
      have hpos : ([] : List PageEntry).length < min limit QUERY_LIMIT_MAX := by
        have h30 : 0 < QUERY_LIMIT_MAX := by decide
        simp only [List.length_nil]
        exact lt_min (by omega) h30
      have h1 := scan_loop_scanned_pos s b ps pe sf vf
        (min limit QUERY_LIMIT_MAX) q qs [] hpos
      omega
    · have h2 := scan_loop_scanned_le s b ps pe sf vf
        (min limit QUERY_LIMIT_MAX) (periods.drop cursor) []
      rw [List.length_drop] at h2
      omega
  · intro h
    unfold get_attestations_page
    dsimp only
    rw [if_pos h]

/-- C6 witness: a concrete three-period call with limit 5 and cursor 0
advances the cursor past 0 while staying within the list length. -/
theorem page_progress_w :
    0 < (get_attestations_page empty_store 0 ["a", "b", "c"] none none 2
      none 5 0).2 ∧
    (get_attestations_page empty_store 0 ["a", "b", "c"] none none 2
      none 5 0).2 ≤ (["a", "b", "c"] : List Period).length :=
  (page_progress empty_store 0 ["a", "b", "c"] none none 2 none 5 0).1
    (by decide) (by decide)

/-! ## C7: the scan of a fully filtered-out page -/

/-- C7 counterexample: with fifty candidate periods all strictly below
the lower bound 9999, limit 10 and cursor 0, the call scans all fifty
candidates and returns next cursor 50, not the claimed 10. -/
theorem page_filtered_cex :
    (∀ p ∈ periods50, compare p "9999" = Ordering.lt) ∧
    periods50.length = 50 ∧
    get_attestations_page empty_store 0 periods50 (some "9999") none 2
      none 10 0 = ([], 50) ∧
    (get_attestations_page empty_store 0 periods50 (some "9999") none 2
      none 10 0).2 ≠ 10 :=
  ⟨by decide, by decide, by decide, by decide⟩

theorem scan_loop_all_filtered (s : Store) (b : Address) (pstart : Period)
    (pend : Option Period) (sf : Nat) (vf : Option Nat) (limit : Nat) :
    ∀ (l : List Period) (out : List PageEntry),
      (∀ p ∈ l, compare p pstart = Ordering.lt) → out.length < limit →
      scan_loop s b (some pstart) pend sf vf limit l out = (out, l.length) := by
  intro l
  induction l with
  | nil => intro out _ _; simp [scan_loop]
  | cons q rest ih =>
    intro out hall hlt
    unfold scan_loop
    rw [if_pos hlt]
    have hq : compare q pstart = Ordering.lt := hall q (by simp)
    have hin : in_range q (some pstart) pend = false := by
      unfold in_range
      dsimp only
      rw [hq]
      rfl
    have hstep : scan_step s b (some pstart) pend sf vf q out = out := by
      unfold scan_step
      rw [hin]
      simp
    rw [hstep]
    dsimp only
    rw [ih out (fun p hp => hall p (List.mem_cons_of_mem _ hp)) hlt]
    simp

/-- C7 amended: when every candidate period is strictly below the set
lower bound, a call with positive limit and cursor 0 matches nothing and
scans the whole list, returning the empty page with next cursor equal to
length(periods) — for the concrete fifty-period instance, 50, not 10. -/
theorem page_filtered_scans_all (s : Store) (b : Address)
    (periods : List Period) (pstart : Period) (pend : Option Period)
    (sf : Nat) (vf : Option Nat) (limit : Nat)
    (hall : ∀ p ∈ periods, compare p pstart = Ordering.lt)
    (hlim : 1 ≤ limit) :
    get_attestations_page s b periods (some pstart) pend sf vf limit 0 =
      ([], periods.length) := by
  unfold get_attestations_page
  dsimp only
  by_cases h0 : periods.length ≤ 0
  · rw [if_pos h0]
    have : periods.length = 0 := by omega
    rw [this]
  · rw [if_neg h0]
    have hmin : ([] : List PageEntry).length < min limit QUERY_LIMIT_MAX := by
      have h30 : 0 < QUERY_LIMIT_MAX := by decide
      simp only [List.length_nil]
      exact lt_min (by omega) h30
    rw [List.drop_zero]
    rw [scan_loop_all_filtered s b pstart pend sf vf
      (min limit QUERY_LIMIT_MAX) periods [] hall hmin]
    simp

/-- C7 witness: the amended statement evaluated at the concrete
fifty-period instance returns the empty page with next cursor 50. -/
theorem page_filtered_scans_all_w :
    get_attestations_page empty_store 0 periods50 (some "9999") none 2
      none 10 0 = ([], periods50.length) :=
  page_filtered_scans_all empty_store 0 periods50 "9999" none 2 none 10
    (by decide) (by decide)

/-! ## C8: the status overlay -/

/-- C8 counterexample: the state after one submission is reachable and
holds an explicitly stored Active status entry for the submitted key, so
the status overlay does not contain only revoked keys. -/
theorem active_status_stored_cex :
    Reachable s_one ∧
    s_one.statuses 0 "2024-Q1" = some STATUS_ACTIVE ∧
    STATUS_ACTIVE ≠ STATUS_REVOKED := by
  refine ⟨?_, rfl, by decide⟩
  exact Reachable.step (.submitOp 0 "2024-Q1" 7 1000 1) Reachable.empty

/-- One entry point preserves the status-overlay invariant: every
present status value is Active or Revoked and belongs to a key that has
a record. -/
theorem status_inv_step (s : Store) (op : Op)
    (h : ∀ b p v, s.statuses b p = some v →
      (v = STATUS_ACTIVE ∨ v = STATUS_REVOKED) ∧
      (s.records b p).isSome = true) :
    ∀ b p v, (apply_op s op).statuses b p = some v →
      (v = STATUS_ACTIVE ∨ v = STATUS_REVOKED) ∧
      ((apply_op s op).records b p).isSome = true := by
  rcases apply_op_cases s op with
    heq | ⟨b1, p1, root, ts, ver, hnew, heq⟩ | ⟨a, _, heq⟩ |
    ⟨b1, p1, hex, heq⟩
  · rw [heq]; exact h
  · rw [heq]
    intro b p v hv
    dsimp only at hv ⊢
    unfold upd2 at hv ⊢
    by_cases hkey : b = b1 ∧ p = p1
    · rw [if_pos hkey] at hv
      injection hv with hv2
      refine ⟨Or.inl hv2.symm, ?_⟩
      rw [if_pos hkey]
      rfl
    · rw [if_neg hkey] at hv
      rw [if_neg hkey]
      exact h b p v hv
  · rw [heq]
    intro b p v hv
    exact h b p v hv
  · rw [heq]
    intro b p v hv
    dsimp only at hv ⊢
    unfold upd2 at hv
    by_cases hkey : b = b1 ∧ p = p1
    · rw [if_pos hkey] at hv
      injection hv with hv2
      refine ⟨Or.inr hv2.symm, ?_⟩
      obtain ⟨h1, h2⟩ := hkey
      subst h1
      subst h2
      exact hex
    · rw [if_neg hkey] at hv
      exact h b p v hv

/-- C8 amended: in every reachable store state a present status entry is
Active or Revoked — Active entries do occur, since submit stores one
explicitly — and a status entry exists only for a key that has a
record. -/
theorem reachable_status_inv (s : Store) (h : Reachable s) :
    ∀ b p v, s.statuses b p = some v →
      (v = STATUS_ACTIVE ∨ v = STATUS_REVOKED) ∧
      (s.records b p).isSome = true := by
  induction h with
  | empty =>
    intro b p v hv
    simp [empty_store] at hv
  | step op ha ih => exact status_inv_step _ op ih

/-- C8 amended witness: the invariant applied to the reachable
one-submission store at its Active status entry. -/
theorem reachable_status_inv_w :
    (STATUS_ACTIVE = STATUS_ACTIVE ∨ STATUS_ACTIVE = STATUS_REVOKED) ∧
    (s_one.records 0 "2024-Q1").isSome = true := by
  exact reachable_status_inv s_one
    (Reachable.step (.submitOp 0 "2024-Q1" 7 1000 1) Reachable.empty)
    0 "2024-Q1" STATUS_ACTIVE rfl

/-! ## C9: the admin is write-once -/

theorem op_preserves_admin (s : Store) (a : Address) (op : Op)
    (h : s.admin = some a) : (apply_op s op).admin = some a := by
  rcases apply_op_cases s op with
    heq | ⟨b1, p1, root, ts, ver, _, heq⟩ | ⟨a1, hnone, heq⟩ |
    ⟨b1, p1, _, heq⟩
  · rw [heq]; exact h
  · rw [heq]; exact h
  · rw [h] at hnone
    simp at hnone
  · rw [heq]; exact h

theorem foldl_preserves_admin (a : Address) :
    ∀ (ops : List Op) (s : Store), s.admin = some a →
      (ops.foldl apply_op s).admin = some a := by
  intro ops
  induction ops with
  | nil => intro s h; simpa using h
  | cons op rest ih =>
    intro s h
    simpa using ih (apply_op s op) (op_preserves_admin s a op h)

/-- C9: once an admin is set, a further init fails with AdminAlreadySet
and leaves the store unchanged, and no sequence of interface operations
ever changes the stored admin. -/
theorem init_write_once (s : Store) (a a1 : Address)
    (h : s.admin = some a) :
    init s a1 = .error .AdminAlreadySet ∧
    apply_op s (.initOp a1) = s ∧
    (∀ ops : List Op, (ops.foldl apply_op s).admin = some a) := by
  have hs : s.admin.isSome = true := by rw [h]; rfl
  refine ⟨by simp [init, hs], apply_op_init_dup s a1 hs, ?_⟩
  intro ops
  exact foldl_preserves_admin a ops s h

/-- C9 witness: the concrete store with admin 1 rejects a second init
and keeps admin 1 under any operation sequence. -/
theorem init_write_once_w :
    init s_admin 5 = .error .AdminAlreadySet ∧
    apply_op s_admin (.initOp 5) = s_admin ∧
    (∀ ops : List Op, (ops.foldl apply_op s_admin).admin = some 1) :=
  init_write_once s_admin 1 5 rfl

/-! ## C10: revoke fails exactly on its three preconditions -/

/-- C10: revoke raises an error iff the admin is unset, the caller is
not the admin, or the record is missing; when the admin calls it on an
existing record whose status is already Revoked, it succeeds and leaves
the status Revoked. -/
theorem revoke_error_iff (s : Store) (caller business : Address)
    (period : Period) :
    ((∃ e, revoke_attestation s caller business period = .error e) ↔
      (s.admin = none ∨ (∃ a, s.admin = some a ∧ caller ≠ a) ∨
        s.records business period = none)) ∧
    (s.admin = some caller →
      s.statuses business period = some STATUS_REVOKED →
      ∀ r, s.records business period = some r →
        ∃ s1, revoke_attestation s caller business period = .ok s1 ∧
          s1.statuses business period = some STATUS_REVOKED) := by
  constructor
  · constructor
    · rintro ⟨e, he⟩
      cases ha : s.admin with
      | none => exact Or.inl rfl
      | some a =>
        by_cases hc : caller = a
        · cases hx : s.records business period with
          | none => exact Or.inr (Or.inr rfl)
          | some r =>
            exfalso
            have hok := revoke_ok_shape s caller business period
              (by rw [ha, hc]) r hx
            rw [hok] at he
            simp at he
        · exact Or.inr (Or.inl ⟨a, rfl, hc⟩)
    · intro hcase
      rcases hcase with hnone | ⟨a, ha, hne⟩ | hrec
      · exact ⟨.AdminNotSet, by simp [revoke_attestation, hnone]⟩
      · exact ⟨.NotAdmin, by simp [revoke_attestation, ha, hne]⟩
      · cases ha : s.admin with
        | none => exact ⟨.AdminNotSet, by simp [revoke_attestation, ha]⟩
        | some a =>
          by_cases hc : caller = a
          · exact ⟨.AttestationNotFound,
              by simp [revoke_attestation, ha, hc, hrec]⟩
          · exact ⟨.NotAdmin, by simp [revoke_attestation, ha, hc]⟩
  · intro ha _ r hr
    exact ⟨_, revoke_ok_shape s caller business period ha r hr,
      upd2_same _ _ _ _⟩

/-- C10 witness: on the concrete already-revoked store, the admin can
call revoke again; it succeeds and the status stays Revoked. -/
theorem revoke_error_iff_w :
    ∃ s1, revoke_attestation s_rev 1 0 "2024-Q1" = .ok s1 ∧
      s1.statuses 0 "2024-Q1" = some STATUS_REVOKED :=
  (revoke_error_iff s_rev 1 0 "2024-Q1").2 rfl rfl ⟨7, 1000, 1⟩ rfl
